import Mathlib

/-!
A formal model of the filter/allowlist subsystem of the
solana-accountsdb-plugin-kafka repository (`src/filter.rs`), together with
theorems settling the specification's claims about it.

Modelling conventions:
* a program identifier (`Pubkey` / `[u8; 32]`) is a list of bytes; byte
  slices of other lengths occur as malformed input, exactly as in the Rust
  `<&[u8; 32]>::try_from` checks;
* `HashSet<[u8; 32]>` becomes `Finset Pk`;
* the `Arc<Mutex<...>>` cells of `Allowlist` are modelled by their contents:
  every operation is an atomic transition on the `Allowlist` record, matching
  the source's whole-set replacement under the lock;
* `std::time::Instant` / `Duration` are nanosecond counts of a monotonic
  clock, passed explicitly (`now` parameters);
* base-58 decoding (`Pubkey::from_str`, an external library) and the HTTP
  transport (`ureq`, an external collaborator) are oracle parameters
  `decode : String → Option Pk` and `fetch : String → FetchResult`;
* a function that can panic in Rust (an `.unwrap()` on a fallible value)
  returns `Option`, `none` being the panic.
-/

namespace Geyser

/-- A program identifier as raw bytes.  Well-formed identifiers have
length 32. -/
abbrev Pk := List Nat

/-- Outcome of one HTTP GET as seen by `Allowlist::get_from_http`:
`ureq::get(url).call()` yields a response with a body, an HTTP status error
(`ureq::Error::Status`), or some transport/io error. -/
inductive FetchResult where
  | success (body : String)
  | statusError (code : Nat)
  | transportError
deriving DecidableEq

/-- A fetch outcome that is an error (non-success status or transport
error): the two `Err` arms of the `match` in `get_from_http`. -/
def FetchResult.isFailure : FetchResult → Bool
  | .success _ => false
  | .statusError _ => true
  | .transportError => true

/-- The configuration options consumed by `Filter::new` and
`Allowlist::new_from_config`. -/
structure Config where
  program_ignores : List String
  program_allowlist : List String
  program_allowlist_url : String
  program_allowlist_update_interval_sec : Nat
deriving DecidableEq

/-- `Duration::from_secs` in nanoseconds. -/
def secs (n : Nat) : Nat := n * 1000000000

/-- Best-effort decoding of a list of textual encodings, as in the
`flat_map(|p| Pubkey::from_str(p).ok().map(|p| p.to_bytes())).collect()`
pattern of `Filter::new` and `Allowlist::new_from_vec`: failures are
silently dropped. -/
def decodeAll (decode : String → Option Pk) (ps : List String) : Finset Pk :=
  (ps.filterMap decode).toFinset

/-- Strict decoding of a list of textual encodings, as in the
`Pubkey::from_str(..).unwrap()` loops of `Allowlist::push_vec` and
`Allowlist::get_from_http`: the first failure panics (`none`). -/
def decodeAllStrict (decode : String → Option Pk) : List String → Option (Finset Pk)
  | [] => some ∅
  | p :: ps =>
    match decode p with
    | none => none
    | some k => (decodeAllStrict decode ps).map (fun s => insert k s)

/-- Split a character list at every newline character (the semantics of
splitting a string on `"\n"`). -/
def splitNewline : List Char → List (List Char)
  | [] => [[]]
  | c :: cs =>
    if c = '\n' then [] :: splitNewline cs
    else
      match splitNewline cs with
      | [] => [[c]]
      | l :: ls => (c :: l) :: ls

/-- One element of Rust's `str::lines`: a trailing carriage return is
stripped. -/
def rustLine (cs : List Char) : List Char :=
  if cs.getLast? = some '\r' then cs.dropLast else cs

/-- Rust's `str::lines`: split on newline, dropping a final empty segment
(so the empty body yields no lines and a trailing newline yields none
either), and stripping a trailing carriage return from each line. -/
def rustLines (s : String) : List String :=
  let parts := splitNewline s.toList
  (if parts.getLast? = some [] then parts.dropLast else parts).map
    (fun cs => String.mk (rustLine cs))

/-- The `Allowlist` state: the identifier set, the optional remote source
URL (empty string meaning none), the timestamp of the last update, and the
refresh interval. -/
structure Allowlist where
  list : Finset Pk
  http_url : String
  http_last_updated : Nat
  http_update_interval : Nat
deriving DecidableEq

/-- `Allowlist::len`: size of the current set. -/
def Allowlist.len (a : Allowlist) : Nat := a.list.card

/-- `Allowlist::wants_program`: fail open (`true`) when the input is not
exactly 32 bytes; otherwise `true` iff the set is empty or contains the
key. -/
def Allowlist.wants_program (a : Allowlist) (program : List Nat) : Bool :=
  if program.length = 32 then decide (a.list = ∅) || decide (program ∈ a.list)
  else true

/-- `Allowlist::new_from_vec`: best-effort decode of the literal list, no
URL, zero interval, `last_updated` set to construction time.  (The Rust
function always returns `Ok`.) -/
def Allowlist.new_from_vec (decode : String → Option Pk) (program_allowlist : List String)
    (now : Nat) : Allowlist :=
  { list := decodeAll decode program_allowlist
    http_url := ""
    http_last_updated := now
    http_update_interval := 0 }

/-- `Allowlist::push_vec`: insert every entry of the list, panicking
(`none`) on the first undecodable entry via `Pubkey::from_str(..).unwrap()`. -/
def Allowlist.push_vec (decode : String → Option Pk) (a : Allowlist)
    (program_allowlist : List String) : Option Allowlist :=
  (decodeAllStrict decode program_allowlist).map
    (fun s => { a with list := a.list ∪ s })

/-- `Allowlist::get_from_http`, applied to the outcome of the GET.  On a
response, every line of the body is decoded with `.unwrap()` (`none`
models the panic on a blank or malformed line); both error arms are
swallowed into the empty set.  The Rust function never returns `Err`. -/
def Allowlist.get_from_http (decode : String → Option Pk) (r : FetchResult) :
    Option (Finset Pk) :=
  match r with
  | .success body => decodeAllStrict decode (rustLines body)
  | .statusError _ => some ∅
  | .transportError => some ∅

/-- `Allowlist::should_update_from_http`: the elapsed time since
`http_last_updated` exceeds the interval (`Instant::duration_since` is
saturating, as is `Nat` subtraction). -/
def Allowlist.should_update_from_http (a : Allowlist) (now : Nat) : Bool :=
  decide (now - a.http_last_updated > a.http_update_interval)

/-- `Allowlist::update_from_http`: no-op on an empty URL; otherwise fetch,
replace the whole set with the decoded result, and set `http_last_updated`
to now.  `none` is a panic inside `get_from_http`. -/
def Allowlist.update_from_http (decode : String → Option Pk) (fetch : String → FetchResult)
    (a : Allowlist) (now : Nat) : Option Allowlist :=
  if a.http_url = "" then some a
  else
    match Allowlist.get_from_http decode (fetch a.http_url) with
    | none => none
    | some l => some { a with list := l, http_last_updated := now }

/-- The body of the thread spawned by `Allowlist::update_from_http_non_blocking`,
evaluated at its completion time: fetch the URL (with no empty-URL check),
replace the whole set, set `http_last_updated`.  `none` is the panic of the
`.unwrap()` in the spawned closure. -/
def Allowlist.update_from_http_non_blocking_task (decode : String → Option Pk)
    (fetch : String → FetchResult) (a : Allowlist) (nowDone : Nat) : Option Allowlist :=
  match Allowlist.get_from_http decode (fetch a.http_url) with
  | none => none
  | some l => some { a with list := l, http_last_updated := nowDone }

/-- `Allowlist::update_from_http_if_needed_async`, observed after any
spawned task completes: when a refresh is due at check time `now`, the
state is that of the background refresh completing at `nowDone`; otherwise
the state is unchanged. -/
def Allowlist.update_from_http_if_needed_async (decode : String → Option Pk)
    (fetch : String → FetchResult) (a : Allowlist) (now nowDone : Nat) : Option Allowlist :=
  if a.should_update_from_http now then
    Allowlist.update_from_http_non_blocking_task decode fetch a nowDone
  else some a

/-- `Allowlist::new_from_http`: clamp the interval to a 1-second floor,
perform one synchronous fetch, and build the state.  The only failure mode
is a panic inside `get_from_http` (`none`); fetch errors are swallowed
there into the empty set. -/
def Allowlist.new_from_http (decode : String → Option Pk) (fetch : String → FetchResult)
    (url : String) (interval : Nat) (now : Nat) : Option Allowlist :=
  let interval := if interval < secs 1 then secs 1 else interval
  (Allowlist.get_from_http decode (fetch url)).map
    (fun l =>
      { list := l
        http_url := url
        http_last_updated := now
        http_update_interval := interval })

/-- `Allowlist::new_from_config`: the three construction modes, in priority
order — remote URL (with optional literal merge via `push_vec`), literal
list only, or neither. -/
def Allowlist.new_from_config (decode : String → Option Pk) (fetch : String → FetchResult)
    (cfg : Config) (now : Nat) : Option Allowlist :=
  if cfg.program_allowlist_url ≠ "" then
    match Allowlist.new_from_http decode fetch cfg.program_allowlist_url
        (secs cfg.program_allowlist_update_interval_sec) now with
    | none => none
    | some out =>
      if cfg.program_allowlist ≠ [] then Allowlist.push_vec decode out cfg.program_allowlist
      else some out
  else if cfg.program_allowlist ≠ [] then
    some (Allowlist.new_from_vec decode cfg.program_allowlist now)
  else
    some { list := ∅, http_url := "", http_last_updated := now, http_update_interval := 0 }

/-- The `Filter`: the static deny-set and the dynamic allow-set. -/
structure Filter where
  program_ignores : Finset Pk
  program_allowlist : Allowlist
deriving DecidableEq

/-- `Filter::new`: best-effort decode of `program_ignores`, allowlist from
`new_from_config` (whose result the source `.unwrap()`s: `none` is that
panic). -/
def Filter.new (decode : String → Option Pk) (fetch : String → FetchResult)
    (cfg : Config) (now : Nat) : Option Filter :=
  match Allowlist.new_from_config decode fetch cfg now with
  | none => none
  | some al => some { program_ignores := decodeAll decode cfg.program_ignores
                      program_allowlist := al }

/-- `Filter::wants_program` (the decision function): when the allow-set is
non-empty, delegate to it; otherwise fail open on malformed length, else
forward iff the key is not in the deny-set. -/
def Filter.wants_program (f : Filter) (program : List Nat) : Bool :=
  if 0 < f.program_allowlist.len then f.program_allowlist.wants_program program
  else if program.length = 32 then !(decide (program ∈ f.program_ignores))
  else true

/-! ### Concrete instances used by witnesses and counterexamples -/

/-- A well-formed identifier. -/
def pkA : Pk := List.replicate 32 1

/-- A second well-formed identifier. -/
def pkB : Pk := List.replicate 32 2

/-- A concrete decoding oracle: `"A"` and `"B"` decode, everything else
(including the empty string) is malformed. -/
def decode0 : String → Option Pk :=
  fun s => if s = "A" then some pkA else if s = "B" then some pkB else none

/-- A fetch oracle for which every URL is unreachable. -/
def fetchErr : String → FetchResult := fun _ => FetchResult.transportError

/-- A fetch oracle for which every URL serves the one-line body `"A"`. -/
def fetchOkA : String → FetchResult := fun _ => FetchResult.success "A"

/-! ### Claims -/

/-- Claim C1: `Filter.decide` (`wants_program`) has strict two-mode
precedence — whenever the allow-set's current size is greater than zero,
the result equals `Allowlist.wants_program` on the same bytes and the
deny-set is never consulted (the result is independent of the deny-set). -/
theorem allow_mode_ignores_denyset (ign ign2 : Finset Pk) (al : Allowlist) (id : List Nat)
    (h : 0 < al.len) :
    Filter.wants_program ⟨ign, al⟩ id = al.wants_program id ∧
    Filter.wants_program ⟨ign, al⟩ id = Filter.wants_program ⟨ign2, al⟩ id := by
  constructor <;> simp [Filter.wants_program, h]

/-- Witness for C1: `pkA` is in both the deny-set and the non-empty
allow-set; the decision is the allow-set's verdict. -/
theorem allow_mode_ignores_denyset_witness :
    0 < (Allowlist.mk {pkA} "" 0 0).len ∧
    (Filter.wants_program ⟨{pkA}, Allowlist.mk {pkA} "" 0 0⟩ pkA =
        (Allowlist.mk {pkA} "" 0 0).wants_program pkA ∧
     Filter.wants_program ⟨{pkA}, Allowlist.mk {pkA} "" 0 0⟩ pkA =
        Filter.wants_program ⟨∅, Allowlist.mk {pkA} "" 0 0⟩ pkA) :=
  ⟨by decide, allow_mode_ignores_denyset {pkA} ∅ (Allowlist.mk {pkA} "" 0 0) pkA (by decide)⟩

/-- Claim C2: `Allowlist.wants_program` returns `true` on any input that is
not exactly 32 bytes (fail-open); otherwise it returns `true` iff the set
is empty or contains the identifier. -/
theorem allowlist_wants_iff (a : Allowlist) (p : List Nat) :
    a.wants_program p = true ↔ (p.length ≠ 32 ∨ a.list = ∅ ∨ p ∈ a.list) := by
  unfold Allowlist.wants_program
  by_cases h : p.length = 32 <;> simp [h]

/-- Claim C3: for a filter built from a configuration, while the allow-set
is empty the decision is `false` exactly on well-formed 32-byte identifiers
that are members of the decoded deny-set, and `true` in every other case. -/
theorem deny_mode_decision (decode : String → Option Pk) (fetch : String → FetchResult)
    (cfg : Config) (now : Nat) (f : Filter) (id : List Nat)
    (hnew : Filter.new decode fetch cfg now = some f)
    (hempty : f.program_allowlist.len = 0) :
    (f.wants_program id = false ↔
      id.length = 32 ∧ id ∈ decodeAll decode cfg.program_ignores) := by
  unfold Filter.new at hnew
  cases hal : Allowlist.new_from_config decode fetch cfg now with
  | none => rw [hal] at hnew; cases hnew
  | some al =>
    rw [hal] at hnew
    simp only [Option.some.injEq] at hnew
    subst hnew
    simp only [Allowlist.len] at hempty
    by_cases hl : id.length = 32 <;>
      simp [Filter.wants_program, Allowlist.len, hempty, hl]

/-- Witness for C3: configuration with deny-list `["A", "bad"]` and no
allow-list; the filter drops exactly the decoded deny-set member `pkA`. -/
theorem deny_mode_decision_witness :
    (Filter.new decode0 fetchErr (Config.mk ["A", "bad"] [] "" 7) 0 =
        some ⟨decodeAll decode0 ["A", "bad"], Allowlist.mk ∅ "" 0 0⟩ ∧
      (Filter.mk (decodeAll decode0 ["A", "bad"]) (Allowlist.mk ∅ "" 0 0)).program_allowlist.len = 0) ∧
    ((Filter.mk (decodeAll decode0 ["A", "bad"]) (Allowlist.mk ∅ "" 0 0)).wants_program pkA = false ↔
      pkA.length = 32 ∧ pkA ∈ decodeAll decode0 (Config.mk ["A", "bad"] [] "" 7).program_ignores) :=
  ⟨⟨by decide, by decide⟩,
    deny_mode_decision decode0 fetchErr (Config.mk ["A", "bad"] [] "" 7) 0
      (Filter.mk (decodeAll decode0 ["A", "bad"]) (Allowlist.mk ∅ "" 0 0)) pkA
      (by decide) (by decide)⟩

/-- Claim C4: a synchronous refresh (`update_from_http`) on a non-empty URL
whose fetch fails (HTTP status error or transport error) still returns
success, atomically replaces the allow-set with the empty set, and advances
`http_last_updated`. -/
theorem failed_fetch_clears_and_advances (decode : String → Option Pk)
    (fetch : String → FetchResult) (a : Allowlist) (now : Nat)
    (hurl : a.http_url ≠ "") (hfail : (fetch a.http_url).isFailure = true)
    (hnow : a.http_last_updated < now) :
    Allowlist.update_from_http decode fetch a now =
      some { a with list := ∅, http_last_updated := now } ∧
    a.http_last_updated < ({ a with list := ∅, http_last_updated := now } : Allowlist).http_last_updated := by
  refine ⟨?_, hnow⟩
  unfold Allowlist.update_from_http
  rw [if_neg hurl]
  cases hr : fetch a.http_url with
  | success body => rw [hr] at hfail; cases hfail
  | statusError code => simp [Allowlist.get_from_http]
  | transportError => simp [Allowlist.get_from_http]

/-- Witness for C4: a transport error on URL `"u"` empties a set that held
`pkA` and moves the timestamp from 0 to 5. -/
theorem failed_fetch_clears_and_advances_witness :
    ((Allowlist.mk {pkA} "u" 0 (secs 1)).http_url ≠ "" ∧
      (fetchErr (Allowlist.mk {pkA} "u" 0 (secs 1)).http_url).isFailure = true ∧
      (Allowlist.mk {pkA} "u" 0 (secs 1)).http_last_updated < 5) ∧
    (Allowlist.update_from_http decode0 fetchErr (Allowlist.mk {pkA} "u" 0 (secs 1)) 5 =
        some { Allowlist.mk {pkA} "u" 0 (secs 1) with list := ∅, http_last_updated := 5 } ∧
      (Allowlist.mk {pkA} "u" 0 (secs 1)).http_last_updated <
        ({ Allowlist.mk {pkA} "u" 0 (secs 1) with list := ∅, http_last_updated := 5 } : Allowlist).http_last_updated) :=
  ⟨⟨by decide, by decide, by decide⟩,
    failed_fetch_clears_and_advances decode0 fetchErr (Allowlist.mk {pkA} "u" 0 (secs 1)) 5
      (by decide) (by decide) (by decide)⟩

/-- Claim C5 (code bug): the skip-on-failure policy is NOT uniform.
`Filter::new`'s deny-set and `new_from_vec` do skip malformed entries, but
`push_vec` panics on a malformed literal entry and `get_from_http` panics
on a blank or malformed line of a 200 body (both via
`Pubkey::from_str(..).unwrap()`), aborting instead of continuing. -/
theorem strict_sites_panic_on_malformed :
    Allowlist.push_vec decode0 (Allowlist.mk ∅ "u" 0 (secs 1)) ["not-a-key"] = none ∧
    Allowlist.get_from_http decode0 (FetchResult.success "A\n\nB") = none ∧
    decodeAll decode0 ["not-a-key", "A"] = {pkA} ∧
    (Allowlist.new_from_vec decode0 ["not-a-key", "A"] 0).list = {pkA} := by
  refine ⟨by decide, ?_, by decide, by decide⟩
  decide

/-- Counterexample to claim C6: constructing from an unreachable URL (the
fetch is a transport error) does not fail — `new_from_http` returns the
successfully built state with an empty set. -/
theorem new_from_http_unreachable_succeeds :
    Allowlist.new_from_http decode0 fetchErr "http://unreachable" (secs 3) 0 =
      some (Allowlist.mk ∅ "http://unreachable" 0 (secs 3)) := by decide

/-- Amended C6: construction mode 1 with a failing fetch (unreachable URL
or error status) does not propagate an error; like every later refresh, it
swallows the failure and succeeds with an empty allow-set. -/
theorem new_from_http_swallows_fetch_error (decode : String → Option Pk)
    (fetch : String → FetchResult) (url : String) (interval now : Nat)
    (hfail : (fetch url).isFailure = true) :
    Allowlist.new_from_http decode fetch url interval now =
      some (Allowlist.mk ∅ url now (if interval < secs 1 then secs 1 else interval)) := by
  unfold Allowlist.new_from_http
  cases hr : fetch url with
  | success body => rw [hr] at hfail; cases hfail
  | statusError code => simp [Allowlist.get_from_http]
  | transportError => simp [Allowlist.get_from_http]

/-- Witness for amended C6 at a concrete unreachable URL. -/
theorem new_from_http_swallows_fetch_error_witness :
    (fetchErr "u").isFailure = true ∧
    Allowlist.new_from_http decode0 fetchErr "u" (secs 3) 0 =
      some (Allowlist.mk ∅ "u" 0 (if secs 3 < secs 1 then secs 1 else secs 3)) :=
  ⟨by decide, new_from_http_swallows_fetch_error decode0 fetchErr "u" (secs 3) 0 (by decide)⟩

/-- Counterexample to claim C7: an allowlist built by `new_from_vec`
(construction mode 2, zero interval) reports a refresh as due one
nanosecond after construction. -/
theorem literal_allowlist_due_counterexample :
    (Allowlist.new_from_vec decode0 ["A"] 0).should_update_from_http 1 = true := by decide

/-- Amended C7: a mode-2 allowlist has a zero refresh interval, and because
`should_update_from_http` compares the elapsed time strictly against that
zero interval, a refresh is due as soon as any positive time has elapsed
since construction — not "never". -/
theorem literal_allowlist_due_iff_elapsed (decode : String → Option Pk)
    (ps : List String) (now later : Nat) :
    (Allowlist.new_from_vec decode ps now).http_update_interval = 0 ∧
    ((Allowlist.new_from_vec decode ps now).should_update_from_http later = true ↔
      now < later) := by
  refine ⟨rfl, ?_⟩
  simp only [Allowlist.new_from_vec, Allowlist.should_update_from_http, decide_eq_true_eq]
  omega

/-- Claim C8: a synchronous refresh against an unchanged remote body is
idempotent on the set contents — both calls leave the set equal to the
decoded body — while `http_last_updated` strictly increases on each call. -/
theorem refresh_sync_idempotent (decode : String → Option Pk) (fetch : String → FetchResult)
    (a : Allowlist) (s : Finset Pk) (t1 t2 : Nat)
    (hurl : a.http_url ≠ "")
    (hget : Allowlist.get_from_http decode (fetch a.http_url) = some s)
    (h0 : a.http_last_updated < t1) (h12 : t1 < t2) :
    Allowlist.update_from_http decode fetch a t1 =
      some { a with list := s, http_last_updated := t1 } ∧
    Allowlist.update_from_http decode fetch { a with list := s, http_last_updated := t1 } t2 =
      some { a with list := s, http_last_updated := t2 } ∧
    a.http_last_updated < t1 ∧ t1 < t2 := by
  refine ⟨?_, ?_, h0, h12⟩
  · unfold Allowlist.update_from_http
    rw [if_neg hurl, hget]
  · unfold Allowlist.update_from_http
    dsimp only
    rw [if_neg hurl, hget]

/-- Witness for C8: two refreshes at times 1 and 2 against the constant
body `"A"`. -/
theorem refresh_sync_idempotent_witness :
    ((Allowlist.mk ∅ "u" 0 (secs 1)).http_url ≠ "" ∧
      Allowlist.get_from_http decode0 (fetchOkA (Allowlist.mk ∅ "u" 0 (secs 1)).http_url) =
        some {pkA}) ∧
    (Allowlist.update_from_http decode0 fetchOkA (Allowlist.mk ∅ "u" 0 (secs 1)) 1 =
        some { Allowlist.mk ∅ "u" 0 (secs 1) with list := {pkA}, http_last_updated := 1 } ∧
      Allowlist.update_from_http decode0 fetchOkA
          { Allowlist.mk ∅ "u" 0 (secs 1) with list := {pkA}, http_last_updated := 1 } 2 =
        some { Allowlist.mk ∅ "u" 0 (secs 1) with list := {pkA}, http_last_updated := 2 } ∧
      (Allowlist.mk ∅ "u" 0 (secs 1)).http_last_updated < 1 ∧ (1 : Nat) < 2) :=
  ⟨⟨by decide, by decide⟩,
    refresh_sync_idempotent decode0 fetchOkA (Allowlist.mk ∅ "u" 0 (secs 1)) {pkA} 1 2
      (by decide) (by decide) (by decide) (by decide)⟩

/-- Claim C9: for a remote-sourced allowlist (non-empty configured URL, the
only mode that consumes `program_allowlist_update_interval_sec`), the
effective refresh interval is `max(configured, 1 second)` regardless of the
configured value. -/
theorem remote_interval_clamped (decode : String → Option Pk) (fetch : String → FetchResult)
    (cfg : Config) (now : Nat) (a : Allowlist)
    (hurl : cfg.program_allowlist_url ≠ "")
    (h : Allowlist.new_from_config decode fetch cfg now = some a) :
    a.http_update_interval =
      max (secs cfg.program_allowlist_update_interval_sec) (secs 1) := by
  have hmax : (if secs cfg.program_allowlist_update_interval_sec < secs 1 then secs 1
      else secs cfg.program_allowlist_update_interval_sec) =
      max (secs cfg.program_allowlist_update_interval_sec) (secs 1) := by
    rw [Nat.max_def]
    split <;> split <;> omega
  unfold Allowlist.new_from_config Allowlist.new_from_http at h
  rw [if_pos hurl] at h
  cases hg : Allowlist.get_from_http decode (fetch cfg.program_allowlist_url) with
  | none => rw [hg] at h; cases h
  | some l =>
    rw [hg] at h
    simp only [Option.map_some'] at h
    by_cases hp : cfg.program_allowlist ≠ []
    · rw [if_pos hp] at h
      unfold Allowlist.push_vec at h
      cases hd : decodeAllStrict decode cfg.program_allowlist with
      | none => rw [hd] at h; cases h
      | some s =>
        rw [hd] at h
        simp only [Option.map_some', Option.some.injEq] at h
        subst h
        exact hmax
    · rw [if_neg hp] at h
      simp only [Option.some.injEq] at h
      subst h
      exact hmax

/-- Witness for C9: configured interval 0 with URL `"u"` yields the
1-second floor. -/
theorem remote_interval_clamped_witness :
    ((Config.mk [] [] "u" 0).program_allowlist_url ≠ "" ∧
      Allowlist.new_from_config decode0 fetchErr (Config.mk [] [] "u" 0) 0 =
        some (Allowlist.mk ∅ "u" 0 (secs 1))) ∧
    (Allowlist.mk ∅ "u" 0 (secs 1)).http_update_interval =
      max (secs (Config.mk [] [] "u" 0).program_allowlist_update_interval_sec) (secs 1) :=
  ⟨⟨by decide, by decide⟩,
    remote_interval_clamped decode0 fetchErr (Config.mk [] [] "u" 0) 0
      (Allowlist.mk ∅ "u" 0 (secs 1)) (by decide) (by decide)⟩

/-- Claim C10: `update_from_http_non_blocking` performs no empty-URL check
(unlike `update_from_http`, which no-ops there): on an allowlist with an
empty URL whose fetch of `""` fails, the spawned refresh atomically
replaces the current set — even a literal-configured one — with the empty
set, and `update_from_http_if_needed_async` does the same once a refresh is
due. -/
theorem empty_url_nonblocking_wipes (decode : String → Option Pk) (fetch : String → FetchResult)
    (a : Allowlist) (now nowDone : Nat)
    (hurl : a.http_url = "") (hfail : (fetch "").isFailure = true)
    (hdue : a.should_update_from_http now = true) :
    Allowlist.update_from_http decode fetch a now = some a ∧
    Allowlist.update_from_http_non_blocking_task decode fetch a nowDone =
      some { a with list := ∅, http_last_updated := nowDone } ∧
    Allowlist.update_from_http_if_needed_async decode fetch a now nowDone =
      some { a with list := ∅, http_last_updated := nowDone } := by
  have htask : Allowlist.update_from_http_non_blocking_task decode fetch a nowDone =
      some { a with list := ∅, http_last_updated := nowDone } := by
    unfold Allowlist.update_from_http_non_blocking_task
    rw [hurl]
    cases hr : fetch "" with
    | success body => rw [hr] at hfail; cases hfail
    | statusError code => simp [Allowlist.get_from_http]
    | transportError => simp [Allowlist.get_from_http]
  refine ⟨?_, htask, ?_⟩
  · unfold Allowlist.update_from_http
    rw [if_pos hurl]
  · unfold Allowlist.update_from_http_if_needed_async
    rw [if_pos hdue]
    exact htask

/-- Witness for C10: an allowlist literal-configured with `["A"]` (mode 2),
checked at time 1 with an always-failing fetch, ends with the empty set
once the spawned refresh completes at time 2. -/
theorem empty_url_nonblocking_wipes_witness :
    ((Allowlist.new_from_vec decode0 ["A"] 0).http_url = "" ∧
      (fetchErr "").isFailure = true ∧
      (Allowlist.new_from_vec decode0 ["A"] 0).should_update_from_http 1 = true) ∧
    (Allowlist.update_from_http decode0 fetchErr (Allowlist.new_from_vec decode0 ["A"] 0) 1 =
        some (Allowlist.new_from_vec decode0 ["A"] 0) ∧
      Allowlist.update_from_http_non_blocking_task decode0 fetchErr
          (Allowlist.new_from_vec decode0 ["A"] 0) 2 =
        some { Allowlist.new_from_vec decode0 ["A"] 0 with list := ∅, http_last_updated := 2 } ∧
      Allowlist.update_from_http_if_needed_async decode0 fetchErr
          (Allowlist.new_from_vec decode0 ["A"] 0) 1 2 =
        some { Allowlist.new_from_vec decode0 ["A"] 0 with list := ∅, http_last_updated := 2 }) :=
  ⟨⟨by decide, by decide, by decide⟩,
    empty_url_nonblocking_wipes decode0 fetchErr (Allowlist.new_from_vec decode0 ["A"] 0) 1 2
      (by decide) (by decide) (by decide)⟩

end Geyser
